import Mathlib

set_option maxRecDepth 100000

/-!
Verification development for the india-vc-intelligence content pipeline.

The Python sources are shallowly embedded as executable Lean definitions:

* `search_engine.py` — `_deduplicate_results`, `_similarity_ratio` (a model of
  `difflib.SequenceMatcher.ratio`), `_parse_date`;
* `content_analyzer.py` — `_calculate_relevance_score`, `_detect_vc_firm`,
  `_assign_priority`;
* `streamlit_app.py` — `ContentAnalyzer.enhanced_ai_analysis` (the scoring part
  after the LLM JSON has been parsed), `ContentAnalyzer.fallback_analysis`,
  `ContentAnalyzer.assess_freshness`, `DatabaseManager.save_article`;
* `data_manager.py` — `DataManager.store_content`.

Modelling conventions: Python `datetime` values are modelled as integers
counting days, so `timedelta.days` becomes plain integer subtraction; the
ambient clock `datetime.now()` is an explicit `now` parameter; the external
date parser (`dateutil.parser.parse` / `datetime.fromisoformat`) is an
explicit function parameter returning `Option Int`; the LLM collaborator's
parsed JSON score is an explicit integer parameter.  Python floats in
`SequenceMatcher.ratio` are modelled as rationals (`ℚ`); `difflib`'s autojunk
heuristic (active only for second strings of length ≥ 200) is not modelled.
-/

/-! ## Python string primitives -/

/-- Leading-segment agreement length of two character lists. -/
def commonRun : List Char → List Char → Nat
  | a :: as, b :: bs => if a = b then commonRun as bs + 1 else 0
  | _, _ => 0

/-- Does `pat` occur at the head of `l`?  (Model of Python `str.startswith`,
used only to build the substring test below.) -/
def headMatch : List Char → List Char → Bool
  | [], _ => true
  | _ :: _, [] => false
  | a :: as, b :: bs => a = b && headMatch as bs

/-- Model of the Python substring test `pat in hay` on character lists:
true iff `pat` occurs contiguously inside `hay` (the empty pattern always
occurs). -/
def subMatch (pat : List Char) : List Char → Bool
  | [] => pat.isEmpty
  | h :: t => headMatch pat (h :: t) || subMatch pat t

/-- Model of the Python expression `needle in hay` on strings. -/
def pyIn (needle hay : String) : Bool := subMatch needle.data hay.data

/-- Model of Python `str.lower` (ASCII case folding, which is all the
sources' keyword tables need). -/
def pyLower (s : String) : String := String.mk (s.data.map Char.toLower)

/-- Model of Python `str.strip`: drop whitespace from both ends. -/
def pyStrip (s : String) : String :=
  String.mk (((s.data.dropWhile Char.isWhitespace).reverse.dropWhile
      Char.isWhitespace).reverse)

/-! ## `difflib.SequenceMatcher` (used by `VCSearchEngine._similarity_ratio`)

`search_engine.py` lines 243–246 compute title similarity with
`SequenceMatcher(None, str1, str2).ratio()`.  The model below follows the
CPython algorithm with no junk: `find_longest_match` returns the largest
matching block, ties broken by the earliest start in the first sequence and
then the earliest start in the second; `ratio` is `2*M/T` where `M` is the
total size of all matching blocks found by recursing on both sides of the
longest one, and `T` the total length, with `ratio = 1` when `T = 0`. -/

/-- One candidate step of `find_longest_match`: replace the current best
block by the block starting at `(i, j)` exactly when the latter is strictly
larger. -/
def flm_step (a b : List Char) (i : Nat) (best : Nat × Nat × Nat) (j : Nat) :
    Nat × Nat × Nat :=
  let k := commonRun (a.drop i) (b.drop j)
  if best.2.2 < k then (i, j, k) else best

/-- Scan all start positions `j` in `b` for a fixed start `i` in `a`. -/
def flm_row (a b : List Char) (best : Nat × Nat × Nat) (i : Nat) :
    Nat × Nat × Nat :=
  (List.range b.length).foldl (flm_step a b i) best

/-- The longest matching block of two character lists, as a triple
`(i, j, size)`: maximise `size`, tie-break by smallest `i`, then smallest
`j`. -/
def find_longest_match (a b : List Char) : Nat × Nat × Nat :=
  (List.range a.length).foldl (flm_row a b) (0, 0, 0)

/-- Total size of all matching blocks, computed with explicit fuel so that
the recursion is structural.  Each recursive call strictly decreases the
summed length of the two lists, so fuel `a.length + b.length` never runs
out. -/
def matching_total_fuel : Nat → List Char → List Char → Nat
  | 0, _, _ => 0
  | fuel + 1, a, b =>
    let m := find_longest_match a b
    if m.2.2 = 0 then 0
    else
      matching_total_fuel fuel (a.take m.1) (b.take m.2.1) + m.2.2 +
        matching_total_fuel fuel (a.drop (m.1 + m.2.2)) (b.drop (m.2.1 + m.2.2))

/-- Total matching size of `SequenceMatcher.get_matching_blocks`. -/
def matching_total (a b : List Char) : Nat :=
  matching_total_fuel (a.length + b.length) a b

/-- `SequenceMatcher.ratio` on character lists: `2*M/T`, and `1` when both
lists are empty. -/
def ratio_chars (a b : List Char) : ℚ :=
  if a.length + b.length = 0 then 1
  else (2 * (matching_total a b : ℚ)) / ((a.length + b.length : ℕ) : ℚ)

/-- `VCSearchEngine._similarity_ratio` (search_engine.py lines 243–246). -/
def similarity_ratio (str1 str2 : String) : ℚ := ratio_chars str1.data str2.data

example : matching_total "abc".data "abc".data = 3 := by decide
example : matching_total "ab".data "ba".data = 1 := by decide
example : find_longest_match "alpha beta".data "beta alpha".data = (0, 5, 5) := by decide

/-! ## The Deduplicator (`VCSearchEngine._deduplicate_results`)

search_engine.py lines 219–241: walk the results in order keeping a set of
seen URLs and a set of seen (lowercased, stripped) titles; a record is kept
iff its URL is not in the seen set and its normalized title has
`_similarity_ratio` at most 0.8 with every seen title; the seen sets are
extended only for kept records. -/

structure SearchResult where
  url : String
  title : String
deriving DecidableEq

/-- `result.get('title', '').lower().strip()`. -/
def normTitle (t : String) : String := pyStrip (pyLower t)

/-- The loop body of `_deduplicate_results`, with the two seen-sets as
explicit list-valued accumulators (set membership is all they are used
for). -/
def deduplicate_go : List String → List String → List SearchResult → List SearchResult
  | _, _, [] => []
  | seen_urls, seen_titles, r :: rs =>
    if r.url ∈ seen_urls then deduplicate_go seen_urls seen_titles rs
    else if ∃ t ∈ seen_titles, 4/5 < similarity_ratio (normTitle r.title) t then
      deduplicate_go seen_urls seen_titles rs
    else r :: deduplicate_go (r.url :: seen_urls) (normTitle r.title :: seen_titles) rs

/-- `VCSearchEngine._deduplicate_results` (search_engine.py lines 219–241). -/
def deduplicate_results (results : List SearchResult) : List SearchResult :=
  deduplicate_go [] [] results

/-- The Deduplicator as claim C3 characterises it, except with the similarity
function the source actually uses (`SequenceMatcher.ratio`) in place of
Jaccard word-token similarity: a record is kept iff its URL differs from the
URL of every earlier KEPT record and its normalized title has similarity at
most 0.8 with every earlier kept record's normalized title; output preserves
first-seen order. -/
def dedup_kept (kept : List SearchResult) : List SearchResult → List SearchResult
  | [] => []
  | r :: rs =>
    if r.url ∈ kept.map (fun k => k.url) then dedup_kept kept rs
    else if ∃ k ∈ kept, 4/5 < similarity_ratio (normTitle r.title) (normTitle k.title) then
      dedup_kept kept rs
    else r :: dedup_kept (kept ++ [r]) rs

/-! ## Jaccard word-token similarity, as the spec describes it

The spec (§4.2, §8) and claims C3/C4 describe the title-similarity function
as the Jaccard similarity `|A∩B| / |A∪B|` of whitespace word-token sets,
with similarity 0 when either token set is empty.  The source does not
contain such a function; this definition follows the spec's words so it can
be compared against the `SequenceMatcher`-based `similarity_ratio` the
source actually uses. -/

/-- Whitespace tokenizer (Python `str.split()` with no argument): maximal
runs of non-whitespace characters. -/
def wordsAux : List Char → List Char → List (List Char)
  | acc, [] => if acc.isEmpty then [] else [acc.reverse]
  | acc, c :: cs =>
    if c.isWhitespace then
      (if acc.isEmpty then wordsAux [] cs else acc.reverse :: wordsAux [] cs)
    else wordsAux (c :: acc) cs

/-- Word-token set of a title (duplicates removed), per the spec's words. -/
def jaccard_tokens (s : String) : List String :=
  ((wordsAux [] s.data).map String.mk).dedup

/-- Jaccard similarity of whitespace word-token sets, per the spec's words:
`|A∩B| / |A∪B|`, and 0 when either token set is empty. -/
def jaccardSim (a b : String) : ℚ :=
  let ta := jaccard_tokens a
  let tb := jaccard_tokens b
  if ta.isEmpty ∨ tb.isEmpty then 0
  else ((ta.filter (fun w => tb.contains w)).length : ℚ) / ((ta ∪ tb).length : ℚ)

example : jaccard_tokens "beta  alpha " = ["beta", "alpha"] := by decide

/-! ## Basic facts about the `SequenceMatcher` model -/

lemma commonRun_le_left (a b : List Char) : commonRun a b ≤ a.length := by
  induction a generalizing b with
  | nil => simp [commonRun]
  | cons x xs ih =>
    cases b with
    | nil => simp [commonRun]
    | cons y ys =>
      simp only [commonRun, List.length_cons]
      split
      · have := ih ys; omega
      · omega

lemma commonRun_self (a : List Char) : commonRun a a = a.length := by
  induction a with
  | nil => rfl
  | cons x xs ih => simp [commonRun, ih]

lemma foldl_fixed {α β : Type} (f : α → β → α) (c : α) (l : List β)
    (h : ∀ x ∈ l, f c x = c) : l.foldl f c = c := by
  induction l with
  | nil => rfl
  | cons x xs ih =>
    rw [List.foldl_cons, h x (List.mem_cons_self x xs)]
    exact ih fun y hy => h y (List.mem_cons_of_mem x hy)

lemma flm_row_fixed (a b : List Char) (best : Nat × Nat × Nat) (i : Nat)
    (h : ∀ j, commonRun (a.drop i) (b.drop j) ≤ best.2.2) :
    flm_row a b best i = best := by
  refine foldl_fixed _ _ _ fun j _ => ?_
  simp only [flm_step]
  rw [if_neg (by exact Nat.not_lt.mpr (h j))]

lemma flm_nil_left (b : List Char) : find_longest_match [] b = (0, 0, 0) := rfl

lemma flm_nil_right (a : List Char) : find_longest_match a [] = (0, 0, 0) := by
  unfold find_longest_match
  exact foldl_fixed _ _ _ fun i _ => rfl

lemma flm_self (s : List Char) (hs : s ≠ []) :
    find_longest_match s s = (0, 0, s.length) := by
  obtain ⟨m, hm⟩ : ∃ m, s.length = m + 1 := by
    cases s with
    | nil => exact absurd rfl hs
    | cons a l => exact ⟨l.length, rfl⟩
  have hr : List.range s.length = 0 :: List.map Nat.succ (List.range m) := by
    rw [hm, List.range_succ_eq_map]
  have hrow0 : flm_row s s (0, 0, 0) 0 = (0, 0, s.length) := by
    unfold flm_row
    rw [hr, List.foldl_cons]
    have hstep : flm_step s s 0 (0, 0, 0) 0 = (0, 0, s.length) := by
      simp [flm_step, commonRun_self, hm]
    rw [hstep]
    refine foldl_fixed _ _ _ fun j _ => ?_
    simp only [flm_step]
    rw [if_neg]
    simp only [Nat.not_lt, List.drop_zero]
    exact commonRun_le_left _ _
  unfold find_longest_match
  rw [hr, List.foldl_cons, hrow0]
  refine foldl_fixed _ _ _ fun i _ => ?_
  refine flm_row_fixed _ _ _ _ fun j => ?_
  calc commonRun (s.drop i) (s.drop j) ≤ (s.drop i).length := commonRun_le_left _ _
    _ ≤ s.length := by simp [List.length_drop]

lemma mtf_nil_left (f : Nat) (b : List Char) : matching_total_fuel f [] b = 0 := by
  cases f with
  | zero => rfl
  | succ f => simp [matching_total_fuel, flm_nil_left]

lemma mtf_nil_right (f : Nat) (a : List Char) : matching_total_fuel f a [] = 0 := by
  cases f with
  | zero => rfl
  | succ f => simp [matching_total_fuel, flm_nil_right]

lemma matching_total_nil_left (b : List Char) : matching_total [] b = 0 :=
  mtf_nil_left _ b

lemma matching_total_nil_right (a : List Char) : matching_total a [] = 0 :=
  mtf_nil_right _ a

lemma matching_total_self (s : List Char) (hs : s ≠ []) :
    matching_total s s = s.length := by
  obtain ⟨m, hm⟩ : ∃ m, s.length = m + 1 := by
    cases s with
    | nil => exact absurd rfl hs
    | cons a l => exact ⟨l.length, rfl⟩
  have hfuel : s.length + s.length = (s.length + m) + 1 := by omega
  unfold matching_total
  rw [hfuel]
  simp only [matching_total_fuel, flm_self s hs]
  rw [if_neg (by omega)]
  simp only [List.take_zero, Nat.zero_add, List.drop_length]
  rw [mtf_nil_left]
  omega

lemma ratio_chars_self (a : List Char) : ratio_chars a a = 1 := by
  by_cases h : a = []
  · subst h; simp [ratio_chars]
  · have hlen : a.length ≠ 0 := fun hh => h (List.length_eq_zero.mp hh)
    simp only [ratio_chars, matching_total_self a h]
    rw [if_neg (by omega)]
    have h2 : ((a.length + a.length : ℕ) : ℚ) = 2 * (a.length : ℚ) := by
      push_cast; ring
    rw [h2, div_self (mul_ne_zero two_ne_zero (Nat.cast_ne_zero.mpr hlen))]

lemma ratio_chars_nil_left (b : List Char) (hb : b ≠ []) :
    ratio_chars [] b = 0 := by
  have hlen : b.length ≠ 0 := fun hh => hb (List.length_eq_zero.mp hh)
  simp only [ratio_chars, matching_total_nil_left]
  rw [if_neg (by simpa using hlen)]
  simp

lemma ratio_chars_nil_right (a : List Char) (ha : a ≠ []) :
    ratio_chars a [] = 0 := by
  have hlen : a.length ≠ 0 := fun hh => ha (List.length_eq_zero.mp hh)
  simp only [ratio_chars, matching_total_nil_right]
  rw [if_neg (by simpa using hlen)]
  simp

/-- Cross-multiplied sufficient condition for the similarity test
`ratio > 0.8` to FAIL: `10·M ≤ 4·T`. -/
lemma ratio_chars_not_gt (a b : List Char) (h0 : a.length + b.length ≠ 0)
    (h : 10 * matching_total a b ≤ 4 * (a.length + b.length)) :
    ¬ (4/5 < ratio_chars a b) := by
  have hT : (0:ℚ) < ((a.length + b.length : ℕ) : ℚ) := by
    exact_mod_cast Nat.pos_of_ne_zero h0
  simp only [ratio_chars, if_neg h0]
  rw [not_lt, div_le_div_iff₀ hT (by norm_num : (0:ℚ) < 5)]
  have h' : ((10 * matching_total a b : ℕ) : ℚ) ≤
      ((4 * (a.length + b.length) : ℕ) : ℚ) := by exact_mod_cast h
  push_cast at h' ⊢
  linarith

/-! ## Structural facts about the Deduplicator -/

lemma deduplicate_go_eq_kept (l : List SearchResult) :
    ∀ kept : List SearchResult,
      deduplicate_go ((kept.map fun k => k.url).reverse)
        ((kept.map fun k => normTitle k.title).reverse) l = dedup_kept kept l := by
  induction l with
  | nil => intro kept; rfl
  | cons r rs ih =>
    intro kept
    by_cases h1 : r.url ∈ kept.map fun k => k.url
    · have h1' : r.url ∈ (kept.map fun k => k.url).reverse := List.mem_reverse.mpr h1
      simp only [deduplicate_go, dedup_kept, if_pos h1, if_pos h1']
      exact ih kept
    · have h1' : r.url ∉ (kept.map fun k => k.url).reverse :=
        fun hh => h1 (List.mem_reverse.mp hh)
      by_cases h2 : ∃ k ∈ kept, 4/5 < similarity_ratio (normTitle r.title) (normTitle k.title)
      · have h2' : ∃ t ∈ (kept.map fun k => normTitle k.title).reverse,
            4/5 < similarity_ratio (normTitle r.title) t := by
          obtain ⟨k, hk, hgt⟩ := h2
          exact ⟨normTitle k.title,
            List.mem_reverse.mpr (List.mem_map_of_mem _ hk), hgt⟩
        simp only [deduplicate_go, dedup_kept, if_neg h1, if_neg h1', if_pos h2, if_pos h2']
        exact ih kept
      · have h2' : ¬ ∃ t ∈ (kept.map fun k => normTitle k.title).reverse,
            4/5 < similarity_ratio (normTitle r.title) t := by
          rintro ⟨t, ht, hgt⟩
          obtain ⟨k, hk, rfl⟩ := List.mem_map.mp (List.mem_reverse.mp ht)
          exact h2 ⟨k, hk, hgt⟩
        simp only [deduplicate_go, dedup_kept, if_neg h1, if_neg h1', if_neg h2, if_neg h2']
        have harg : (r.url :: (kept.map fun k => k.url).reverse) =
            ((kept ++ [r]).map fun k => k.url).reverse := by
          simp
        have harg2 : (normTitle r.title :: (kept.map fun k => normTitle k.title).reverse) =
            ((kept ++ [r]).map fun k => normTitle k.title).reverse := by
          simp
        rw [harg, harg2, ih (kept ++ [r])]

lemma deduplicate_go_sublist (l : List SearchResult) :
    ∀ sU sT, List.Sublist (deduplicate_go sU sT l) l := by
  induction l with
  | nil => intro sU sT; exact List.Sublist.refl _
  | cons r rs ih =>
    intro sU sT
    simp only [deduplicate_go]
    split_ifs with h1 h2
    · exact List.Sublist.cons r (ih sU sT)
    · exact List.Sublist.cons r (ih sU sT)
    · exact List.Sublist.cons₂ r (ih _ _)

lemma deduplicate_go_url_not_seen (l : List SearchResult) :
    ∀ sU sT u, u ∈ sU → u ∉ (deduplicate_go sU sT l).map fun r => r.url := by
  induction l with
  | nil => intro sU sT u _ hmem; simp [deduplicate_go] at hmem
  | cons r rs ih =>
    intro sU sT u hu hmem
    simp only [deduplicate_go] at hmem
    split_ifs at hmem with h1 h2
    · exact ih sU sT u hu hmem
    · exact ih sU sT u hu hmem
    · rcases List.mem_map.mp hmem with ⟨x, hx, hxu⟩
      rcases List.mem_cons.mp hx with rfl | hx'
      · exact h1 (hxu ▸ hu)
      · exact ih _ _ u (List.mem_cons_of_mem _ hu)
          (List.mem_map.mpr ⟨x, hx', hxu⟩)

lemma deduplicate_go_urls_nodup (l : List SearchResult) :
    ∀ sU sT, ((deduplicate_go sU sT l).map fun r => r.url).Nodup := by
  induction l with
  | nil => intro sU sT; simp [deduplicate_go]
  | cons r rs ih =>
    intro sU sT
    simp only [deduplicate_go]
    split_ifs with h1 h2
    · exact ih sU sT
    · exact ih sU sT
    · simp only [List.map_cons, List.nodup_cons]
      exact ⟨deduplicate_go_url_not_seen rs _ _ r.url (List.mem_cons_self _ _), ih _ _⟩

lemma deduplicate_go_idem (l : List SearchResult) :
    ∀ sU sT, deduplicate_go sU sT (deduplicate_go sU sT l) = deduplicate_go sU sT l := by
  induction l with
  | nil => intro sU sT; rfl
  | cons r rs ih =>
    intro sU sT
    by_cases h1 : r.url ∈ sU
    · simp only [deduplicate_go, if_pos h1]
      exact ih sU sT
    · by_cases h2 : ∃ t ∈ sT, 4/5 < similarity_ratio (normTitle r.title) t
      · simp only [deduplicate_go, if_neg h1, if_pos h2]
        exact ih sU sT
      · simp only [deduplicate_go, if_neg h1, if_neg h2]
        rw [ih _ _]

/-! ## `ContentAnalyzer` of content_analyzer.py

`_calculate_relevance_score` (lines 70–123), `_detect_vc_firm` (141–161) and
`_assign_priority` (163–171).  A content item is the dict `{title, content,
source, date_published}`; `date_published` may be absent, a datetime (an
`Int` here, counting days), or a raw string to be parsed. -/

structure ContentItem where
  title : String
  content : String
  source : String
  date_published : Option (Int ⊕ String)
deriving DecidableEq

/-- `self.investment_keywords` (content_analyzer.py lines 29–33). -/
def investment_keywords : List String :=
  ["investment thesis", "portfolio strategy", "market analysis", "funding trends",
   "investment focus", "sector outlook", "market opportunity", "venture capital",
   "investment philosophy", "deal flow", "due diligence", "investment criteria"]

/-- The keyword lists of `self.priority_sectors` (content_analyzer.py lines
20–27), in dict insertion order. -/
def priority_sector_keywords : List (List String) :=
  [["consumer", "retail", "marketplace", "e-commerce"],
   ["d2c", "direct-to-consumer", "brand", "digital native"],
   ["saas", "software-as-a-service", "enterprise software", "b2b software"],
   ["fintech", "financial technology", "payments", "banking", "neobank"],
   ["ai saas", "artificial intelligence software", "ai platform", "machine learning saas"],
   ["agentic ai", "ai agents", "autonomous ai", "ai automation", "intelligent agents"]]

/-- Lines 98–105: `date_published = content_item.get('date_published',
datetime.now())`, strings parsed with `datetime.fromisoformat` falling back
to `datetime.now()`, then `days_old = (now - date).days`.  `parse` stands
for the fallible ISO parser. -/
def days_old_of (parse : String → Option Int) (now : Int)
    (dp : Option (Int ⊕ String)) : Int :=
  let d : Int := match dp with
    | none => now
    | some (Sum.inl t) => t
    | some (Sum.inr s) => match parse s with
      | some t => t
      | none => now
  now - d

/-- `ContentAnalyzer._calculate_relevance_score` (content_analyzer.py lines
70–123).  Line 116 of the source is mojibake-damaged (`'â‚¹'` is a
double-encoded rupee sign and the first of the two intended currency
literals was destroyed); the surviving rupee-literal test is kept and the
destroyed one is dropped, which only affects which contents receive that
+5. -/
def calculate_relevance_score (parse : String → Option Int) (now : Int)
    (item : ContentItem) : Int :=
  let title := pyLower item.title
  let content := pyLower item.content
  let source := pyLower item.source
  let score : Int := 50
  let score := score +
    (if ["blume", "accel", "matrix", "peak", "sequoia", "elevation",
          "lightspeed"].any (fun vc => pyIn vc source) then 20
     else if ["techcrunch", "inc42", "entrackr"].any (fun d => pyIn d source) then 15
     else if ["economic", "business-standard", "livemint"].any
          (fun d => pyIn d source) then 10
     else 0)
  let investment_terms : Nat :=
    investment_keywords.countP fun term => pyIn term title || pyIn term content
  let score := score + min ((investment_terms : Int) * 5) 20
  let sector_matches : Nat :=
    priority_sector_keywords.countP fun kws =>
      kws.any fun keyword => pyIn keyword title || pyIn keyword content
  let score := score + min ((sector_matches : Int) * 5) 15
  let days_old := days_old_of parse now item.date_published
  let score := score + (if days_old ≤ 1 then 10 else if days_old ≤ 7 then 5 else 0)
  let score := score + (if 500 < content.data.length then 5 else 0)
  let score := score + (if pyIn "funding" title || pyIn "investment" title then 10 else 0)
  let score := score + (if pyIn "â‚¹" content then 5 else 0)
  let score := score -
    (if ["cricket", "bollywood", "politics", "weather"].any
        (fun term => pyIn term title) then 20 else 0)
  max 0 (min 100 score)

/-- `self.tier1_vcs` of `ContentAnalyzer` (content_analyzer.py lines 15–18). -/
def tier1_vcs : List String :=
  ["Peak XV", "Sequoia", "Accel", "Matrix Partners",
   "Elevation", "Lightspeed", "Blume"]

/-- `vc_mapping` of `_detect_vc_firm` (content_analyzer.py lines 145–155),
in dict insertion order. -/
def vc_mapping : List (String × String) :=
  [("peak xv", "Peak XV Partners"),
   ("sequoia", "Peak XV Partners"),
   ("accel", "Accel India"),
   ("matrix", "Matrix Partners India"),
   ("elevation", "Elevation Capital"),
   ("lightspeed", "Lightspeed India"),
   ("blume", "Blume Ventures"),
   ("kalaari", "Kalaari Capital"),
   ("nexus", "Nexus Venture Partners")]

/-- `ContentAnalyzer._detect_vc_firm` (content_analyzer.py lines 141–161):
first alias whose keyword occurs in the lower-cased
title+content+source text wins; no match gives `"Unknown"`. -/
def detect_vc_firm (item : ContentItem) : String :=
  let text := pyLower (item.title ++ " " ++ item.content ++ " " ++ item.source)
  match vc_mapping.find? (fun kv => pyIn kv.1 text) with
  | some kv => kv.2
  | none => "Unknown"

/-- The canonical firm names claim C10 enumerates. -/
def canonical_firms : List String :=
  ["Peak XV Partners", "Accel India", "Matrix Partners India",
   "Elevation Capital", "Lightspeed India", "Blume Ventures",
   "Kalaari Capital", "Nexus Venture Partners"]

/-- `ContentAnalyzer._assign_priority` (content_analyzer.py lines 163–171). -/
def assign_priority (score : Int) (vc_firm : String) (sectors : List String) :
    String :=
  if 80 ≤ score ∨ vc_firm ∈ tier1_vcs ∨ ∃ s ∈ sectors, s ∈ ["AI SaaS", "Agentic AI"]
  then "High"
  else if 60 ≤ score ∨ 2 ≤ sectors.length then "Medium"
  else "Low"

/-- Priority tiers ordered Low < Medium < High, for the monotonicity claim. -/
def priority_rank (p : String) : Nat :=
  if p = "High" then 2 else if p = "Medium" then 1 else 0

/-! ## `ContentAnalyzer` of streamlit_app.py

`assess_freshness` (lines 344–367), the modifier/clamp part of
`enhanced_ai_analysis` (lines 437–457) and `fallback_analysis`
(lines 463–495). -/

structure ArticleData where
  title : String
  content : String
  domain : String
  source_quality : String
  content_freshness : String
  is_paywall : Bool
deriving DecidableEq

/-- `ContentAnalyzer.assess_freshness` (streamlit_app.py lines 344–367).
`published_date` is the raw string (`''` when absent, which is falsy in
Python); `parse` is the fallible `datetime.fromisoformat` (whose exception
lands in the `except` arm returning `'unknown'`); `now` is the current time
in days and `now_year` the current calendar year. -/
def assess_freshness (parse : String → Option Int) (now : Int) (now_year : Nat)
    (published_date : String) (content : String) : String :=
  if published_date = "" then
    if pyIn (toString now_year) content || pyIn (toString (now_year - 1)) content
    then "recent" else "unknown"
  else
    match parse published_date with
    | none => "unknown"
    | some pub =>
      let days_old := now - pub
      if days_old ≤ 7 then "fresh"
      else if days_old ≤ 30 then "recent"
      else if days_old ≤ 90 then "moderate"
      else "stale"

/-- The age buckets exactly as claim C7 states them for a present,
parseable date. -/
def freshness_bucket_claim (days_old : Int) : String :=
  if days_old ≤ 7 then "fresh"
  else if days_old ≤ 30 then "recent"
  else if days_old ≤ 90 then "moderate"
  else "stale"

/-- The absent-date fallback exactly as claim C7 states it. -/
def freshness_absent_claim (now_year : Nat) (content : String) : String :=
  if pyIn (toString now_year) content || pyIn (toString (now_year - 1)) content
  then "recent" else "unknown"

/-- The modifier/clamp part of `ContentAnalyzer.enhanced_ai_analysis`
(streamlit_app.py lines 437–457): `llm_score` is `result.get('score', 0)`
parsed from the LLM's JSON; then the source-quality, freshness and paywall
modifiers are applied in sequence and the result clamped by
`max(0, min(base_score, 100))`. -/
def enhanced_ai_score (llm_score : Int) (a : ArticleData) : Int :=
  let base := llm_score
  let base := base +
    (if a.source_quality = "premium" then 15
     else if a.source_quality = "thought_leadership" then 8 else 0)
  let base := base +
    (if a.content_freshness = "stale" then -20
     else if a.content_freshness = "fresh" then 10 else 0)
  let base := base - (if a.is_paywall then 10 else 0)
  max 0 (min base 100)

/-- `strategic_keywords` of `fallback_analysis` (streamlit_app.py lines
467–472), in dict insertion order. -/
def strategic_keywords : List (String × List String) :=
  [("investment_thesis", ["thesis", "investment philosophy", "strategy", "framework"]),
   ("scaling_strategy", ["scaling", "growth", "expansion", "building"]),
   ("market_analysis", ["market", "trends", "analysis", "outlook"]),
   ("thought_leadership", ["insights", "perspective", "vision", "future"])]

/-- Python `max(scores, key=scores.get)` over an insertion-ordered dict:
the first entry with the (strictly) maximal value wins. -/
def max_by_score (x : String × Int) (xs : List (String × Int)) : String × Int :=
  xs.foldl (fun b y => if b.2 < y.2 then y else b) x

/-- The per-category keyword scores of `fallback_analysis` (lines 474–477):
`sum(15 for keyword in keywords if keyword in text)`. -/
def fallback_scores (a : ArticleData) : List (String × Int) :=
  let text := pyLower (a.title ++ " " ++ a.content)
  strategic_keywords.map fun ck =>
    (ck.1, 15 * ((ck.2.countP fun keyword => pyIn keyword text : Nat) : Int))

/-- `best_category` / `base_score` of `fallback_analysis` (lines 479–480). -/
def fallback_best (a : ArticleData) : String × Int :=
  match fallback_scores a with
  | [] => ("", 0)
  | x :: xs => max_by_score x xs

def fallback_base (a : ArticleData) : Int := (fallback_best a).2

structure FallbackResult where
  score : Int
  category : String
deriving DecidableEq

/-- `ContentAnalyzer.fallback_analysis` (streamlit_app.py lines 463–495):
keyword base score, then `+20` for a premium source and `+10` for fresh
content (no thought-leadership, stale or paywall modifier), capped at 100
by `min(base_score, 100)`. -/
def fallback_analysis (a : ArticleData) : FallbackResult :=
  let base := fallback_base a
  let base := base + (if a.source_quality = "premium" then 20 else 0)
  let base := base + (if a.content_freshness = "fresh" then 10 else 0)
  { score := min base 100, category := (fallback_best a).1 }

/-- The post-scoring modifier sum exactly as claim C2 states it: +15
premium, +8 thought leadership, +10 fresh, −20 stale, −10 paywalled. -/
def claimed_modifier_sum (a : ArticleData) : Int :=
  (if a.source_quality = "premium" then 15 else 0)
  + (if a.source_quality = "thought_leadership" then 8 else 0)
  + (if a.content_freshness = "fresh" then 10 else 0)
  + (if a.content_freshness = "stale" then -20 else 0)
  + (if a.is_paywall then -10 else 0)

/-- Final score as claim C2 states it: base plus the modifier sum, clamped
to `[0, 100]`. -/
def claimed_final_score (base : Int) (a : ArticleData) : Int :=
  max 0 (min (base + claimed_modifier_sum a) 100)

/-- The modifiers `fallback_analysis` actually applies. -/
def fallback_modifier_sum (a : ArticleData) : Int :=
  (if a.source_quality = "premium" then 20 else 0)
  + (if a.content_freshness = "fresh" then 10 else 0)

/-! ## `VCSearchEngine._parse_date` (search_engine.py lines 256–265)

`date_str` is `None` or a string; a falsy (empty) string, an absent value
and a parse failure all return `datetime.now()`. -/

def parse_date (parse : String → Option Int) (now : Int)
    (date_str : Option String) : Int :=
  match date_str with
  | none => now
  | some s =>
    if s = "" then now
    else match parse s with
      | some t => t
      | none => now

/-! ## The store adapters

`DataManager.store_content` (data_manager.py lines 86–143): for each record
check `SELECT id FROM content WHERE url = ?`; skip if present, otherwise
`INSERT`; a failing insert (the `except` arm) skips just that record; the
count of inserted records is returned.  The database is modelled as the
insertion-ordered list of stored rows and the fallibility of one `INSERT`
as an explicit oracle `ok`.

`DatabaseManager.save_article` (streamlit_app.py lines 171–193) instead runs
`INSERT OR REPLACE INTO articles`, which on an `id` conflict replaces the
stored row with the new values. -/

structure ContentRec where
  title : String
  url : String
  content : String
  source : String
  relevance_score : Int
deriving DecidableEq

def store_content_go (ok : ContentRec → Bool) :
    List ContentRec → Nat → List ContentRec → List ContentRec × Nat
  | db, n, [] => (db, n)
  | db, n, c :: cs =>
    if c.url ∈ db.map (fun r => r.url) then store_content_go ok db n cs
    else if ok c then store_content_go ok (db ++ [c]) (n + 1) cs
    else store_content_go ok db n cs

/-- `DataManager.store_content` (data_manager.py lines 86–143). -/
def store_content (ok : ContentRec → Bool) (db : List ContentRec)
    (content_list : List ContentRec) : List ContentRec × Nat :=
  store_content_go ok db 0 content_list

structure ARow where
  id : String
  title : String
  url : String
  relevance_score : Int
deriving DecidableEq

/-- `DatabaseManager.save_article` (streamlit_app.py lines 171–193):
`INSERT OR REPLACE` keyed by the primary key `id` (which is
`md5(url)`). -/
def save_article (db : List ARow) (a : ARow) : List ARow :=
  if a.id ∈ db.map (fun r => r.id) then
    db.map fun r => if r.id = a.id then a else r
  else db ++ [a]

/-! ## Helper lemmas for the scoring and store theorems -/

lemma max_by_score_nonneg (x : String × Int) (xs : List (String × Int))
    (hx : 0 ≤ x.2) (hxs : ∀ y ∈ xs, 0 ≤ y.2) : 0 ≤ (max_by_score x xs).2 := by
  unfold max_by_score
  induction xs generalizing x with
  | nil => exact hx
  | cons y ys ih =>
    rw [List.foldl_cons]
    refine ih _ ?_ fun z hz => hxs z (List.mem_cons_of_mem _ hz)
    by_cases h : x.2 < y.2
    · rw [if_pos h]; exact hxs y (List.mem_cons_self _ _)
    · rw [if_neg h]; exact hx

lemma fallback_scores_nonneg (a : ArticleData) :
    ∀ y ∈ fallback_scores a, 0 ≤ y.2 := by
  intro y hy
  unfold fallback_scores at hy
  obtain ⟨ck, _, rfl⟩ := List.mem_map.mp hy
  have : (0:ℤ) ≤ ((ck.2.countP fun keyword =>
      pyIn keyword (pyLower (a.title ++ " " ++ a.content)) : Nat) : ℤ) :=
    Int.natCast_nonneg _
  dsimp only
  linarith

lemma fallback_base_nonneg (a : ArticleData) : 0 ≤ fallback_base a := by
  unfold fallback_base fallback_best
  rcases hcase : fallback_scores a with _ | ⟨x, xs⟩
  · simp
  · have hall := fallback_scores_nonneg a
    rw [hcase] at hall
    exact max_by_score_nonneg x xs (hall x (List.mem_cons_self _ _))
      fun y hy => hall y (List.mem_cons_of_mem _ hy)

lemma store_go_length (ok : ContentRec → Bool) (cs : List ContentRec) :
    ∀ db n, (store_content_go ok db n cs).1.length + n =
      db.length + (store_content_go ok db n cs).2 := by
  induction cs with
  | nil => intro db n; rfl
  | cons c cs ih =>
    intro db n
    simp only [store_content_go]
    split_ifs with h1 h2
    · exact ih db n
    · have := ih (db ++ [c]) (n + 1)
      simp only [List.length_append, List.length_singleton] at this
      omega
    · exact ih db n

lemma store_go_mono_urls (ok : ContentRec → Bool) (cs : List ContentRec) :
    ∀ db n u, u ∈ db.map (fun r => r.url) →
      u ∈ (store_content_go ok db n cs).1.map (fun r => r.url) := by
  induction cs with
  | nil => intro db n u hu; exact hu
  | cons c cs ih =>
    intro db n u hu
    simp only [store_content_go]
    split_ifs with h1 h2
    · exact ih db n u hu
    · refine ih _ _ u ?_
      simp only [List.map_append]
      exact List.mem_append_left _ hu
    · exact ih db n u hu

lemma store_go_all_urls (cs : List ContentRec) :
    ∀ db n c, c ∈ cs →
      c.url ∈ (store_content_go (fun _ => true) db n cs).1.map (fun r => r.url) := by
  induction cs with
  | nil => intro db n c hc; simp at hc
  | cons d ds ih =>
    intro db n c hc
    simp only [store_content_go]
    rcases List.mem_cons.mp hc with rfl | hc'
    · split_ifs with h1
      · exact store_go_mono_urls _ ds db n c.url h1
      · refine store_go_mono_urls _ ds _ _ c.url ?_
        simp
    · split_ifs with h1 <;> exact ih _ _ c hc'

lemma store_go_skip_all (ok : ContentRec → Bool) (cs : List ContentRec) :
    ∀ db n, (∀ c ∈ cs, c.url ∈ db.map fun r => r.url) →
      store_content_go ok db n cs = (db, n) := by
  induction cs with
  | nil => intro db n _; rfl
  | cons c cs ih =>
    intro db n h
    simp only [store_content_go]
    rw [if_pos (h c (List.mem_cons_self _ _))]
    exact ih db n fun d hd => h d (List.mem_cons_of_mem _ hd)

lemma store_go_nodup (ok : ContentRec → Bool) (cs : List ContentRec) :
    ∀ db n, (db.map fun r => r.url).Nodup →
      ((store_content_go ok db n cs).1.map fun r => r.url).Nodup := by
  induction cs with
  | nil => intro db n h; exact h
  | cons c cs ih =>
    intro db n h
    simp only [store_content_go]
    split_ifs with h1 h2
    · exact ih db n h
    · refine ih _ _ ?_
      simp only [List.map_append, List.map_cons, List.map_nil]
      rw [List.nodup_append]
      exact ⟨h, List.nodup_singleton _, by simpa using fun hmem => h1 hmem⟩
    · exact ih db n h

lemma string_data_ne_nil {s : String} (h : s ≠ "") : s.data ≠ [] := by
  intro hd
  apply h
  cases s with
  | mk l => cases hd; rfl

/-! ## Claim theorems -/

/-- Claim C1: every scoring path — the heuristic relevance scorer
`_calculate_relevance_score`, the LLM-assisted `enhanced_ai_analysis`
(whatever integer score the LLM's JSON carried), and the keyword
`fallback_analysis` — yields an integer relevance score in `[0, 100]`. -/
theorem relevance_scores_within_bounds (parse : String → Option Int) (now : Int)
    (item : ContentItem) (llm_score : Int) (a b : ArticleData) :
    (0 ≤ calculate_relevance_score parse now item
      ∧ calculate_relevance_score parse now item ≤ 100)
    ∧ (0 ≤ enhanced_ai_score llm_score a ∧ enhanced_ai_score llm_score a ≤ 100)
    ∧ (0 ≤ (fallback_analysis b).score ∧ (fallback_analysis b).score ≤ 100) := by
  refine ⟨⟨?_, ?_⟩, ⟨?_, ?_⟩, ⟨?_, ?_⟩⟩
  · exact le_max_left 0 _
  · exact max_le (by norm_num) (min_le_left _ _)
  · exact le_max_left 0 _
  · exact max_le (by norm_num) (min_le_right _ _)
  · have hbase := fallback_base_nonneg b
    have h1 : (0:ℤ) ≤ if b.source_quality = "premium" then 20 else 0 := by
      split <;> norm_num
    have h2 : (0:ℤ) ≤ if b.content_freshness = "fresh" then 10 else 0 := by
      split <;> norm_num
    exact le_min (by linarith) (by norm_num)
  · exact min_le_right _ _

/-- Claim C9: the Deduplicator is idempotent — running
`_deduplicate_results` on its own output returns that output unchanged. -/
theorem deduplicate_idempotent (l : List SearchResult) :
    deduplicate_results (deduplicate_results l) = deduplicate_results l :=
  deduplicate_go_idem l [] []

/-- Claim C3 (amended): a record is kept by `_deduplicate_results` iff its
URL was not seen in an earlier kept record and its lowercased, stripped
title has `SequenceMatcher` similarity at most 0.8 with every earlier kept
title (`dedup_kept` states exactly that recursion); the output preserves
first-seen order and kept URLs are mutually distinct.  The claim's "Jaccard
word-token similarity" does not hold of the code — see the
counterexample. -/
theorem deduplicator_kept_characterization (l : List SearchResult) :
    deduplicate_results l = dedup_kept [] l
    ∧ List.Sublist (deduplicate_results l) l
    ∧ ((deduplicate_results l).map fun r => r.url).Nodup :=
  ⟨deduplicate_go_eq_kept l [], deduplicate_go_sublist l [] [],
    deduplicate_go_urls_nodup l [] []⟩

/-- Claim C6 (code bug): `_parse_date` returns `datetime.now()`, not null,
for an absent, empty or unparsable date string, and the downstream
`days_old` computation of `_calculate_relevance_score` therefore treats a
record with no date as 0 days old (the always-fresh bias the spec's §9 open
question describes). -/
theorem parse_date_defaults_to_now (parse : String → Option Int) (now : Int)
    (s : String) :
    parse_date parse now none = now
    ∧ (parse s = none → parse_date parse now (some s) = now)
    ∧ days_old_of parse now none = 0 := by
  refine ⟨rfl, ?_, by simp [days_old_of]⟩
  intro h
  simp only [parse_date]
  by_cases hs : s = ""
  · rw [if_pos hs]
  · rw [if_neg hs, h]

theorem parse_date_defaults_to_now_witness :
    parse_date (fun _ => none) 5 none = 5
    ∧ parse_date (fun _ => none) 5 (some "not-a-date") = 5
    ∧ days_old_of (fun _ => none) 5 none = 0 := by
  obtain ⟨h1, h2, h3⟩ := parse_date_defaults_to_now (fun _ => none) 5 "not-a-date"
  exact ⟨h1, h2 rfl, h3⟩

/-- Claim C7: with a present, parseable published date, `assess_freshness`
buckets the age in days as ≤7 fresh / ≤30 recent / ≤90 moderate / else
stale; with an absent date it answers recent iff the content contains the
current or prior calendar year as a literal substring, else unknown. -/
theorem assess_freshness_buckets (parse : String → Option Int) (now : Int)
    (now_year : Nat) (pd content : String) :
    (∀ t, pd ≠ "" → parse pd = some t →
        assess_freshness parse now now_year pd content
          = freshness_bucket_claim (now - t))
    ∧ (pd = "" → assess_freshness parse now now_year pd content
          = freshness_absent_claim now_year content) := by
  constructor
  · intro t hpd hparse
    unfold assess_freshness freshness_bucket_claim
    rw [if_neg hpd, hparse]
  · intro hpd
    unfold assess_freshness freshness_absent_claim
    rw [if_pos hpd]

theorem assess_freshness_buckets_witness :
    assess_freshness (fun _ => some 0) 3 2024 "2024-01-01T00:00:00" "" = "fresh"
    ∧ assess_freshness (fun _ => some 0) 40 2024 "2024-01-01T00:00:00" "" = "moderate"
    ∧ assess_freshness (fun _ => some 0) 3 2024 "" "a 2024 report" = "recent"
    ∧ assess_freshness (fun _ => some 0) 3 2024 "" "no year here" = "unknown" := by
  refine ⟨?_, ?_, ?_, ?_⟩
  · rw [(assess_freshness_buckets (fun _ => some 0) 3 2024 "2024-01-01T00:00:00" "").1
      0 (by decide) rfl]
    decide
  · rw [(assess_freshness_buckets (fun _ => some 0) 40 2024 "2024-01-01T00:00:00" "").1
      0 (by decide) rfl]
    decide
  · rw [(assess_freshness_buckets (fun _ => some 0) 3 2024 "" "a 2024 report").2 rfl]
    decide
  · rw [(assess_freshness_buckets (fun _ => some 0) 3 2024 "" "no year here").2 rfl]
    decide

lemma assign_priority_rank (s : Int) (firm : String) (sectors : List String) :
    priority_rank (assign_priority s firm sectors) =
      if 80 ≤ s ∨ firm ∈ tier1_vcs ∨ ∃ x ∈ sectors, x ∈ ["AI SaaS", "Agentic AI"]
      then 2
      else if 60 ≤ s ∨ 2 ≤ sectors.length then 1 else 0 := by
  unfold assign_priority
  split_ifs <;> simp [priority_rank]

/-- Claim C8: with the detected firm and sector tags held fixed,
`_assign_priority` is a non-decreasing step function of the relevance
score (Low < Medium < High). -/
theorem priority_monotone_in_score (firm : String) (sectors : List String)
    (s1 s2 : Int) (h : s1 ≤ s2) :
    priority_rank (assign_priority s1 firm sectors) ≤
      priority_rank (assign_priority s2 firm sectors) := by
  rw [assign_priority_rank, assign_priority_rank]
  by_cases hA : firm ∈ tier1_vcs ∨ ∃ x ∈ sectors, x ∈ ["AI SaaS", "Agentic AI"]
  · rw [if_pos (Or.inr hA), if_pos (Or.inr hA)]
  · by_cases h80 : 80 ≤ s1
    · rw [if_pos (Or.inl h80), if_pos (Or.inl (by omega))]
    · rw [if_neg (by rintro (hh | hh) <;> [omega; exact hA hh])]
      by_cases hB : 2 ≤ sectors.length
      · rw [if_pos (Or.inr hB)]
        split_ifs <;> omega
      · by_cases h60 : 60 ≤ s1
        · rw [if_pos (Or.inl h60)]
          have h60' : 60 ≤ s2 := by omega
          by_cases h80' : 80 ≤ s2
          · rw [if_pos (Or.inl h80')]; omega
          · rw [if_neg (by rintro (hh | hh) <;> [omega; exact hA hh]),
              if_pos (Or.inl h60')]
        · rw [if_neg (by rintro (hh | hh) <;> [omega; exact hB hh])]
          split_ifs <;> omega

theorem priority_monotone_in_score_witness :
    (10:Int) ≤ 90
    ∧ priority_rank (assign_priority 10 "Unknown" []) ≤
        priority_rank (assign_priority 90 "Unknown" []) :=
  ⟨by norm_num, priority_monotone_in_score "Unknown" [] 10 90 (by norm_num)⟩

/-- Claim C10: `_detect_vc_firm` returns either `"Unknown"` or one of its
eight canonical full firm names; none of those return values belongs to
`tier1_vcs` (the analyzer's list of short names), so the
`vc_firm in self.tier1_vcs` disjunct of `_assign_priority` is never
satisfied on detector output and the assigned priority agrees with the one
computed for an unknown firm, i.e. it depends only on the score and the
sector tags. -/
theorem detector_output_never_tier1 (item : ContentItem) (score : Int)
    (sectors : List String) :
    (detect_vc_firm item = "Unknown" ∨ detect_vc_firm item ∈ canonical_firms)
    ∧ detect_vc_firm item ∉ tier1_vcs
    ∧ assign_priority score (detect_vc_firm item) sectors
        = assign_priority score "Unknown" sectors := by
  have hrange : detect_vc_firm item = "Unknown"
      ∨ detect_vc_firm item ∈ canonical_firms := by
    unfold detect_vc_firm
    rcases hf : vc_mapping.find? (fun kv =>
        pyIn kv.1 (pyLower (item.title ++ " " ++ item.content ++ " " ++ item.source)))
      with _ | kv
    · left; simp only [hf]
    · right
      simp only [hf]
      have hmem : kv ∈ vc_mapping := List.mem_of_find?_eq_some hf
      have hall : ∀ kv ∈ vc_mapping, kv.2 ∈ canonical_firms := by decide
      exact hall kv hmem
  have hnot : detect_vc_firm item ∉ tier1_vcs := by
    rcases hrange with hu | hc
    · rw [hu]; decide
    · have hall : ∀ x ∈ canonical_firms, x ∉ tier1_vcs := by decide
      exact hall _ hc
  refine ⟨hrange, hnot, ?_⟩
  have hu : ("Unknown" : String) ∉ tier1_vcs := by decide
  unfold assign_priority
  refine if_congr ?_ rfl rfl
  constructor
  · rintro (hh | hh | hh)
    · exact Or.inl hh
    · exact absurd hh hnot
    · exact Or.inr (Or.inr hh)
  · rintro (hh | hh | hh)
    · exact Or.inl hh
    · exact absurd hh hu
    · exact Or.inr (Or.inr hh)

/-- Claim C2 (amended): the two strategies do NOT share one modifier table.
The LLM path applies exactly the modifiers the claim lists (+15 premium, +8
thought leadership, +10 fresh, −20 stale, −10 paywalled, then clamp to
[0,100]); the keyword fallback instead applies only +20 for premium and +10
for fresh — no thought-leadership or stale modifier and no paywall penalty
at all — and clamps only from above.  So the paywall penalty is applied
exactly once under the LLM strategy and zero times under the fallback. -/
theorem score_modifiers_by_strategy (llm_score : Int) (a b : ArticleData) :
    enhanced_ai_score llm_score a = claimed_final_score llm_score a
    ∧ (fallback_analysis b).score = min (fallback_base b + fallback_modifier_sum b) 100
    ∧ (fallback_analysis b).category = (fallback_best b).1 := by
  refine ⟨?_, ?_, rfl⟩
  · unfold enhanced_ai_score claimed_final_score claimed_modifier_sum
    by_cases h1 : a.source_quality = "premium" <;>
    by_cases h2 : a.source_quality = "thought_leadership" <;>
    by_cases h3 : a.content_freshness = "stale" <;>
    by_cases h4 : a.content_freshness = "fresh" <;>
    by_cases h5 : a.is_paywall <;>
    first
      | (exfalso; rw [h1] at h2; exact absurd h2 (by decide))
      | (exfalso; rw [h3] at h4; exact absurd h4 (by decide))
      | (simp [h1, h2, h3, h4, h5]
         try ring_nf)
  · unfold fallback_analysis fallback_modifier_sum
    ring_nf

/-- A premium, fresh, paywalled article whose text contains none of the
fallback strategic keywords, so the fallback keyword base score is 0. -/
def art_c2 : ArticleData :=
  { title := "zz", content := "qq", domain := "x",
    source_quality := "premium", content_freshness := "fresh",
    is_paywall := true }

/-- Claim C2 counterexample: on `art_c2` the keyword fallback strategy
returns `0 + 20 (premium) + 10 (fresh) = 30`, while the claim's uniform
modifier table (+15 premium, +10 fresh, −10 paywall, clamped) would give
15 — so the modifiers are not applied identically under both strategies and
the paywall penalty is not applied at all in the fallback. -/
theorem score_modifiers_differ_counterexample :
    fallback_base art_c2 = 0
    ∧ (fallback_analysis art_c2).score = 30
    ∧ claimed_final_score (fallback_base art_c2) art_c2 = 15
    ∧ (fallback_analysis art_c2).score
        ≠ claimed_final_score (fallback_base art_c2) art_c2 := by decide

/-- Claim C4 (amended): the title-similarity function the Deduplicator uses
is `SequenceMatcher.ratio` on character sequences, not Jaccard word-token
similarity.  It satisfies `similarity(A, A) = 1` for every `A` — including
the empty string, where the claim demanded 0 — and is 0 when exactly one of
the two strings is empty; it is not symmetric in general (see the
counterexample). -/
theorem similarity_ratio_diagonal_and_empty (s : String) :
    similarity_ratio s s = 1
    ∧ (s ≠ "" → similarity_ratio "" s = 0 ∧ similarity_ratio s "" = 0)
    ∧ similarity_ratio "" "" = 1 := by
  refine ⟨ratio_chars_self s.data, fun hs => ?_, ratio_chars_self []⟩
  have hd := string_data_ne_nil hs
  exact ⟨ratio_chars_nil_left s.data hd, ratio_chars_nil_right s.data hd⟩

theorem similarity_ratio_diagonal_and_empty_witness :
    similarity_ratio "ab" "ab" = 1
    ∧ similarity_ratio "" "ab" = 0
    ∧ similarity_ratio "ab" "" = 0 := by
  obtain ⟨h1, h2, _⟩ := similarity_ratio_diagonal_and_empty "ab"
  obtain ⟨h2a, h2b⟩ := h2 (by decide)
  exact ⟨h1, h2a, h2b⟩

/-- Claim C4 counterexample: the similarity of two empty titles is 1, not 0
as the claim states, and the function is not even symmetric —
`similarity("abxcdv", "cdzabux") = 6/13` but
`similarity("cdzabux", "abxcdv") = 4/13` — so it cannot be the (symmetric)
Jaccard similarity of word-token sets. -/
theorem similarity_ratio_not_jaccard_counterexample :
    similarity_ratio "" "" = 1
    ∧ (1 : ℚ) ≠ 0
    ∧ similarity_ratio "abxcdv" "cdzabux" ≠ similarity_ratio "cdzabux" "abxcdv" := by
  refine ⟨ratio_chars_self [], by norm_num, ?_⟩
  have h1 : matching_total "abxcdv".data "cdzabux".data = 3 := by decide
  have h2 : matching_total "cdzabux".data "abxcdv".data = 2 := by decide
  have l1 : ("abxcdv".data).length = 6 := by decide
  have l2 : ("cdzabux".data).length = 7 := by decide
  simp only [similarity_ratio, ratio_chars, h1, h2, l1, l2]
  norm_num

/-- Claim C5 (amended): `DataManager.store_content` is insert-or-skip on
URL — a record whose URL already exists in the store is skipped with no
change and no error, a record whose single-row insert fails is skipped
without aborting the rest of the batch, re-storing the same batch after a
fully successful store inserts nothing and changes nothing, the returned
count is exactly the number of newly inserted rows, and stored URLs stay
pairwise distinct.  `DatabaseManager.save_article`, by contrast, is
`INSERT OR REPLACE`: it overwrites the stored row (see the
counterexample). -/
theorem store_content_insert_or_skip (ok : ContentRec → Bool)
    (db : List ContentRec) (c : ContentRec) (cs : List ContentRec) :
    (c.url ∈ db.map (fun r => r.url) →
        store_content ok db (c :: cs) = store_content ok db cs)
    ∧ (ok c = false → c.url ∉ db.map (fun r => r.url) →
        store_content ok db (c :: cs) = store_content ok db cs)
    ∧ (store_content (fun _ => true)
          (store_content (fun _ => true) db cs).1 cs
        = ((store_content (fun _ => true) db cs).1, 0))
    ∧ ((store_content ok db cs).1.length = db.length + (store_content ok db cs).2)
    ∧ ((db.map fun r => r.url).Nodup →
        ((store_content ok db cs).1.map fun r => r.url).Nodup) := by
  refine ⟨?_, ?_, ?_, ?_, ?_⟩
  · intro h
    unfold store_content
    simp only [store_content_go]
    rw [if_pos h]
  · intro hok h
    unfold store_content
    simp only [store_content_go]
    rw [if_neg h, if_neg (by simp [hok])]
  · exact store_go_skip_all _ cs _ 0 fun d hd =>
      store_go_all_urls cs db 0 d hd
  · unfold store_content
    have := store_go_length ok cs db 0
    omega
  · exact fun h => store_go_nodup ok cs db 0 h

def rec_c5 : ContentRec :=
  { title := "T", url := "https://example.com/a", content := "c",
    source := "s", relevance_score := 50 }

theorem store_content_insert_or_skip_witness :
    store_content (fun _ => true) [rec_c5] [rec_c5]
      = store_content (fun _ => true) [rec_c5] []
    ∧ store_content (fun _ => false) [] [rec_c5]
      = store_content (fun _ => false) [] [] :=
  ⟨(store_content_insert_or_skip (fun _ => true) [rec_c5] rec_c5 []).1 (by decide),
   (store_content_insert_or_skip (fun _ => false) [] rec_c5 []).2.1 rfl (by decide)⟩

def row_v1 : ARow :=
  { id := "6a7", title := "T", url := "https://example.com/a",
    relevance_score := 50 }

def row_v2 : ARow :=
  { id := "6a7", title := "T", url := "https://example.com/a",
    relevance_score := 90 }

/-- Claim C5 counterexample: the `DatabaseManager.save_article` path cited
by the claim is NOT skip-on-existing — saving a second article with the
same id/URL replaces the stored row's fields (here the relevance score
changes from 50 to 90), so "no update to the existing row" fails on that
path. -/
theorem save_article_updates_counterexample :
    save_article (save_article [] row_v1) row_v2 = [row_v2]
    ∧ row_v2.relevance_score ≠ row_v1.relevance_score := by decide

lemma deduplicate_go_cons (sU sT : List String) (r : SearchResult)
    (rs : List SearchResult) :
    deduplicate_go sU sT (r :: rs) =
      if r.url ∈ sU then deduplicate_go sU sT rs
      else if ∃ t ∈ sT, 4/5 < similarity_ratio (normTitle r.title) t then
        deduplicate_go sU sT rs
      else r :: deduplicate_go (r.url :: sU) (normTitle r.title :: sT) rs := rfl

def res_a : SearchResult := { url := "https://example.com/1", title := "alpha beta" }
def res_b : SearchResult := { url := "https://example.com/2", title := "beta alpha" }

/-- Claim C3 counterexample: on the input `[res_a, res_b]` — distinct URLs,
titles `"alpha beta"` and `"beta alpha"` — the code keeps BOTH records
(their `SequenceMatcher` similarity is 1/2), yet the two titles have
identical word-token sets, i.e. Jaccard similarity 1 > 0.8, so under the
claim's "kept only if Jaccard ≤ 0.8 with every earlier kept title" the
second record would have been dropped.  The Deduplicator therefore does not
implement the Jaccard-based rule the claim states. -/
theorem deduplicator_not_jaccard_counterexample :
    deduplicate_results [res_a, res_b] = [res_a, res_b]
    ∧ 4/5 < jaccardSim (normTitle res_b.title) (normTitle res_a.title) := by
  have hn1 : normTitle res_a.title = "alpha beta" := by decide
  have hn2 : normTitle res_b.title = "beta alpha" := by decide
  constructor
  · have hnot : ¬ (4/5 < similarity_ratio "beta alpha" "alpha beta") := by
      show ¬ (4/5 < ratio_chars "beta alpha".data "alpha beta".data)
      exact ratio_chars_not_gt _ _ (by decide) (by decide)
    have hex0 : ¬ ∃ t ∈ ([] : List String),
        4/5 < similarity_ratio (normTitle res_a.title) t := by
      rintro ⟨t, ht, _⟩
      exact List.not_mem_nil t ht
    have hu : res_b.url ∉ [res_a.url] := by decide
    have hex1 : ¬ ∃ t ∈ [normTitle res_a.title],
        4/5 < similarity_ratio (normTitle res_b.title) t := by
      rintro ⟨t, ht, hgt⟩
      rw [List.mem_singleton] at ht
      subst ht
      rw [hn1, hn2] at hgt
      exact hnot hgt
    show deduplicate_go [] [] [res_a, res_b] = [res_a, res_b]
    rw [deduplicate_go_cons, if_neg (List.not_mem_nil _), if_neg hex0,
      deduplicate_go_cons, if_neg hu, if_neg hex1]
    rfl
  · have jt1 : jaccard_tokens "beta alpha" = ["beta", "alpha"] := by decide
    have jt2 : jaccard_tokens "alpha beta" = ["alpha", "beta"] := by decide
    have hif : ((["beta", "alpha"] : List String).filter
        (fun w => (["alpha", "beta"] : List String).contains w)).length = 2 := by decide
    have hun : ((["beta", "alpha"] : List String) ∪ ["alpha", "beta"]).length = 2 := by
      decide
    rw [hn2, hn1]
    simp only [jaccardSim, jt1, jt2]
    rw [if_neg (by decide), hif, hun]
    norm_num
